import Mathlib

/-!
Shallow embedding of `src/google-share-second.js` (Cisco RoomOS macro,
"Google Meet dual-display" — wired autodetect variant; the static variant
shares every function modelled here, with `ALLOWED_SOURCE_IDS` fixed).

Modelling conventions:
* Device queries (`xapi.Status....get()`) are inputs of type `Option _`;
  `none` is the query throwing, `some v` the returned snapshot (the JS
  `Array.isArray` normalisation of a scalar/null result into a list is
  absorbed by typing the snapshot as a list).
* Platform commands (`xapi.Command.Video.Matrix.*`) are recorded in a
  trace; a `Bool` flag per command says whether the platform accepted it
  (`false` = the command threw after being issued).
* JS numbers reaching the macro are integers (`parseInt` results); a JS
  field that may be absent is `Option`; `x || y` / truthiness is modelled
  explicitly (`0`, `""`, `null`, `undefined` are falsy).
-/

namespace GShare

/-- JS truthiness of an optional integer (`lastMatrixSourceId && ...`):
`null`/`undefined` and `0` are falsy. -/
def jsTruthy : Option Int → Bool
  | none => false
  | some n => n != 0

/-- JS `a || b || ...` over optional strings: first present, non-empty string;
`""` if none. -/
def firstTruthyString : List (Option String) → String
  | [] => ""
  | x :: xs =>
    match x with
    | some s => if s = "" then firstTruthyString xs else s
    | none => firstTruthyString xs

/-- First-occurrence deduplication, the order a JS `Set` iterates in
(`[...new Set(nums)]`). `seen` accumulates already-emitted elements. -/
def dedupFirstAux (seen : List Int) : List Int → List Int
  | [] => []
  | x :: xs =>
    if x ∈ seen then dedupFirstAux seen xs
    else x :: dedupFirstAux (x :: seen) xs

def dedupFirst (l : List Int) : List Int := dedupFirstAux [] l

/-- JS `String.prototype.includes` (substring containment). -/
def strContains (s m : String) : Bool :=
  s.toList.tails.any (fun t => m.toList.isPrefixOf t)

/-- JS `\w` character class (ASCII word character). -/
def isWordChar (c : Char) : Bool := c.isAlphanum || c = '_'

/-- `String(candidate).trim().toLowerCase().replace(/^\w+:\/\//, '')`:
strip a leading `scheme://` after normalising. -/
def stripScheme (s : String) : String :=
  let cs := s.toList
  let w := cs.takeWhile isWordChar
  if w.length > 0 && "://".toList.isPrefixOf (cs.drop w.length) then
    String.mk (cs.drop (w.length + 3))
  else s

/-- Predicate of `looksLikeGoogle(candidate)`:
normalise and test `startsWith('meet.google.com/')`. -/
def looksLikeGoogle (candidate : String) : Bool :=
  let s := stripScheme candidate.trim.toLower
  s.startsWith "meet.google.com/"

/-! ### Data model: platform snapshots -/

/-- One record of `xapi.Status.Call.get()`: the four identifying text
fields tried in priority order (`undefined` = `none`). -/
structure CallRecord where
  callbackURI : Option String
  callbackNumber : Option String
  remoteURI : Option String
  displayName : Option String
deriving Repr, DecidableEq

/-- `(c.CallbackURI || c.CallbackNumber || c.RemoteURI || c.DisplayName || '').toString()` -/
def callCandidate (c : CallRecord) : String :=
  firstTruthyString [c.callbackURI, c.callbackNumber, c.remoteURI, c.displayName]

/-- One record of `Status.Conference.Presentation.LocalInstance.get()`.
`source`/`sourceId` are the two accepted source fields: `none` = field
absent, `some vs` = present, holding the `parseInt` result of each
element (`none` inside = non-numeric / NaN). -/
structure PresnInstance where
  sendingMode : Option String
  source : Option (List (Option Int))
  sourceId : Option (List (Option Int))
deriving Repr, DecidableEq

/-- One record of `Status.Video.Input.Connector.get()`: candidate id
fields (each a `parseInt` result, `none` = absent or NaN) and the type
label (`none` = absent). -/
structure Connector where
  id : Option Int
  connectorId : Option Int
  connector : Option Int
  number : Option Int
  inst : Option Int
  type_ : Option String
deriving Repr, DecidableEq

/-- Matrix commands issued to the platform. -/
inductive Command where
  | assign (output : Int) (sourceId : Int)
  | reset (output : Int)
deriving Repr, DecidableEq

/-! ### Mutable macro state -/

def OUTPUT2_ID : Int := 2

/-- The macro's module-level mutable variables. -/
structure MacroState where
  googleCallActive : Bool
  matrixEngaged : Bool
  lastMatrixSourceId : Option Int
  allowedSourceIds : List Int
  lastEvalSig : String
  reevaluating : Bool
deriving Repr, DecidableEq

/-- Values of the module-level `let`s when the script loads. -/
def initialState : MacroState :=
  { googleCallActive := false
    matrixEngaged := false
    lastMatrixSourceId := none
    allowedSourceIds := []
    lastEvalSig := ""
    reevaluating := false }

/-- Ambient platform inputs for one run: query snapshots (`none` = the
query throws) and whether each matrix command is accepted. -/
structure Env where
  presentation : Option (List PresnInstance)
  connectors : Option (List Connector)
  assignOk : Bool
  resetOk : Bool

/-! ### Presentation inspector -/

/-- `isSharingToRemote()`: true iff some local instance sends
`LocalRemote`; a query failure is `false`. -/
def isSharingToRemote (q : Option (List PresnInstance)) : Bool :=
  match q with
  | none => false
  | some list => list.any (fun i => (i.sendingMode.getD "") == "LocalRemote")

/-- `normalizeIds(src)`: keep the finite `parseInt` results, first-occurrence
deduplicated. -/
def normalizeIds (src : List (Option Int)) : List Int :=
  dedupFirst (src.filterMap id)

/-- `(i.Source !== undefined) ? i.Source : i.SourceId` -/
def instanceRawIds (i : PresnInstance) : List (Option Int) :=
  match i.source with
  | some l => l
  | none => i.sourceId.getD []

/-- `getLocalPresentationSourceIds()`: collect both source fields over all
instances, dedupe, sort ascending; a query failure is `[]`. -/
def getLocalPresentationSourceIds (q : Option (List PresnInstance)) : List Int :=
  match q with
  | none => []
  | some list =>
    List.insertionSort (· ≤ ·)
      (dedupFirst (list.foldr (fun i acc => normalizeIds (instanceRawIds i) ++ acc) []))

/-! ### Selection policy -/

/-- `pickRelevantSourceId(activeIds)`; the globals `ALLOWED_SOURCE_IDS`
and `lastMatrixSourceId` are explicit parameters. Note the JS guard is
`lastMatrixSourceId && candidates.includes(lastMatrixSourceId)` — a
truthiness test, so stickiness is skipped when the remembered id is 0. -/
def pickCandidates (allowed activeIds : List Int) : List Int :=
  activeIds.filter (fun id => allowed.contains id)

def pickRelevantSourceId (allowed : List Int) (lastId : Option Int)
    (activeIds : List Int) : Option Int :=
  let candidates := pickCandidates allowed activeIds
  if candidates.isEmpty then none
  else if jsTruthy lastId && candidates.contains (lastId.getD 0) then lastId
  else candidates.getLast?

/-! ### Meeting classifier -/

/-- `refreshGoogleState()`: recompute `googleCallActive` from the call
snapshot; a query failure forces it to `false`. -/
def refreshGoogleState (calls : Option (List CallRecord)) (s : MacroState) : MacroState :=
  match calls with
  | none => { s with googleCallActive := false }
  | some list =>
    { s with googleCallActive := list.any (fun c => looksLikeGoogle (callCandidate c)) }

/-! ### Capability discovery -/

/-- `normalizeType(s)`: trim + upper-case (absent label gave the default `''`). -/
def normalizeType (s : String) : String := s.trim.toUpper

/-- `parseConnectorId(obj)`: first of the candidate id fields whose
`parseInt` is finite. -/
def parseConnectorId (c : Connector) : Option Int :=
  firstSome [c.id, c.connectorId, c.connector, c.number, c.inst]
where
  firstSome : List (Option Int) → Option Int
    | [] => none
    | some n :: _ => some n
    | none :: xs => firstSome xs

def usbMatchers : List String := ["USBC-DP", "USBC", "USB-C", "USB C", "USB TYPE-C"]
def hdmiMatchers : List String := ["HDMI"]

/-- `isUSBc || isHDMI` over the normalised type label. -/
def connectorTypeEligible (c : Connector) : Bool :=
  let t := normalizeType (c.type_.getD "")
  usbMatchers.any (fun m => strContains t m) || hdmiMatchers.any (fun m => strContains t m)

/-- The id set discovered from a connector snapshot, Set-deduplicated and
sorted ascending (`[...found].sort((a,b)=>a-b)`). -/
def discoveredIds (conns : List Connector) : List Int :=
  List.insertionSort (· ≤ ·)
    (dedupFirst (conns.filterMap (fun c =>
      match parseConnectorId c with
      | none => none
      | some cid => if connectorTypeEligible c then some cid else none)))

/-- `refreshAllowedSourcesFromConnectors()`: on success install the
discovered sorted set, falling back to `[2, 3]` when it is empty; on a
query failure keep the previous list, falling back to `[2, 3]` only when
it is empty. -/
def refreshAllowedSourcesFromConnectors (q : Option (List Connector))
    (s : MacroState) : MacroState :=
  match q with
  | some conns =>
    let ids := discoveredIds conns
    if ids.isEmpty then { s with allowedSourceIds := [2, 3] }
    else { s with allowedSourceIds := ids }
  | none =>
    if s.allowedSourceIds.isEmpty then { s with allowedSourceIds := [2, 3] } else s

/-! ### Output actuator -/

/-- `assignToOutput2(sourceId)`: the Assign command is issued; only on
platform success (`ok`) does the state change to engaged/remembered. -/
def assignToOutput2 (ok : Bool) (sourceId : Int) (s : MacroState) :
    MacroState × List Command :=
  if ok then
    ({ s with matrixEngaged := true, lastMatrixSourceId := some sourceId },
      [Command.assign OUTPUT2_ID sourceId])
  else (s, [Command.assign OUTPUT2_ID sourceId])

/-- `resetOutput2()`: no command at all when not engaged; otherwise the
Reset command is issued and the state is cleared only on success. -/
def resetOutput2 (ok : Bool) (s : MacroState) : MacroState × List Command :=
  if !s.matrixEngaged then (s, [])
  else if ok then
    ({ s with matrixEngaged := false, lastMatrixSourceId := none },
      [Command.reset OUTPUT2_ID])
  else (s, [Command.reset OUTPUT2_ID])

/-! ### Reconciliation engine -/

/-- The log-dedup signature string of `reevaluate`. -/
def evalSig (g r e : Bool) (lastId : Option Int) : String :=
  (if g then "1" else "0") ++ "-" ++ (if r then "1" else "0") ++ "-" ++
    (if e then "1" else "0") ++ "-" ++
    (match lastId with | none => "null" | some n => toString n)

/-- The log-dedup step of `reevaluate`: update `lastEvalSig` when the
signature changed. (`remote` in the signature is the pure
`isSharingToRemote` of the same snapshot the run reads.) -/
def sigUpdate (env : Env) (s : MacroState) : MacroState :=
  let sig := evalSig s.googleCallActive (isSharingToRemote env.presentation)
    s.matrixEngaged s.lastMatrixSourceId
  if sig ≠ s.lastEvalSig then { s with lastEvalSig := sig } else s

/-- `if (ALLOWED_SOURCE_IDS.length === 0) await refreshAllowedSourcesFromConnectors();` -/
def ensureAllowed (env : Env) (s : MacroState) : MacroState :=
  if s.allowedSourceIds.isEmpty then refreshAllowedSourcesFromConnectors env.connectors s
  else s

/-- The routing tail of `reevaluate`'s in-meeting branch: pick, then
reset / assign / no-op by the diff check. -/
def routeStep (env : Env) (s2 : MacroState) : MacroState × List Command :=
  match pickRelevantSourceId s2.allowedSourceIds s2.lastMatrixSourceId
      (getLocalPresentationSourceIds env.presentation) with
  | none => resetOutput2 env.resetOk s2
  | some chosen =>
    if !s2.matrixEngaged || s2.lastMatrixSourceId ≠ some chosen then
      assignToOutput2 env.assignOk chosen s2
    else (s2, [])

/-- `reevaluate()` (autodetect variant). The single-flight guard makes a
call during an in-flight run a no-op; in a completed run the guard is set
on entry and restored by `finally`, so the resulting state carries its
entry value. -/
def reevaluate (env : Env) (s : MacroState) : MacroState × List Command :=
  if s.reevaluating then (s, [])
  else
    let s1 := sigUpdate env s
    if s1.googleCallActive && isSharingToRemote env.presentation then
      routeStep env (ensureAllowed env s1)
    else resetOutput2 env.resetOk s1

/-- The `init()` IIFE (autodetect variant): discovery, classification,
then `resetOutput2()` to start clean, from the fresh module state. -/
def init (env : Env) (calls : Option (List CallRecord)) : MacroState × List Command :=
  let s1 := refreshAllowedSourcesFromConnectors env.connectors initialState
  let s2 := refreshGoogleState calls s1
  resetOutput2 env.resetOk s2

/-- The spec's RoutingState invariant:
`engaged == false ⇒ currentSourceId == null`. -/
def RoutingInv (s : MacroState) : Prop :=
  s.matrixEngaged = false → s.lastMatrixSourceId = none

/-! ## Helper lemmas -/

theorem mem_dedupFirstAux (l : List Int) : ∀ (seen : List Int) (x : Int),
    (x ∈ dedupFirstAux seen l ↔ x ∈ l ∧ x ∉ seen) := by
  induction l with
  | nil => intro seen x; simp [dedupFirstAux]
  | cons y l ih =>
    intro seen x
    by_cases hy : y ∈ seen
    · rw [dedupFirstAux, if_pos hy, ih]
      simp only [List.mem_cons]
      constructor
      · rintro ⟨h1, h2⟩; exact ⟨Or.inr h1, h2⟩
      · rintro ⟨h1 | h1, h2⟩
        · exact absurd (h1 ▸ hy) h2
        · exact ⟨h1, h2⟩
    · rw [dedupFirstAux, if_neg hy]
      simp only [List.mem_cons, ih]
      constructor
      · rintro (rfl | ⟨h1, h2⟩)
        · exact ⟨Or.inl rfl, hy⟩
        · exact ⟨Or.inr h1, fun hc => h2 (Or.inr hc)⟩
      · rintro ⟨h1 | h1, h2⟩
        · exact Or.inl h1
        · by_cases hxy : x = y
          · exact Or.inl hxy
          · exact Or.inr ⟨h1, fun hc => hc.elim hxy h2⟩

theorem mem_dedupFirst (l : List Int) (x : Int) : x ∈ dedupFirst l ↔ x ∈ l := by
  rw [dedupFirst, mem_dedupFirstAux]
  simp

/-- In a `(· ≤ ·)`-sorted list the last element bounds every member. -/
theorem le_getLast_of_sorted : ∀ {l : List Int}, l.Sorted (· ≤ ·) →
    ∀ {m : Int}, l.getLast? = some m → ∀ {x : Int}, x ∈ l → x ≤ m := by
  intro l
  induction l with
  | nil => intro _ m hm; cases hm
  | cons a l ih =>
    intro hs m hm x hx
    rcases List.sorted_cons.mp hs with ⟨ha, hl⟩
    cases l with
    | nil =>
      simp only [List.getLast?_singleton, Option.some.injEq] at hm
      rcases List.mem_singleton.mp hx with rfl
      exact le_of_eq hm
    | cons b l' =>
      rw [List.getLast?_cons_cons] at hm
      rcases List.mem_cons.mp hx with rfl | hx'
      · have hmmem : m ∈ b :: l' := by
          rcases List.mem_getLast?_eq_getLast (Option.mem_def.mpr hm) with ⟨hne, hmeq⟩
          exact hmeq ▸ List.getLast_mem hne
        exact ha m hmmem
      · exact ih hl hm hx'

theorem pick_eq_none_iff (allowed : List Int) (lastId : Option Int) (act : List Int) :
    pickRelevantSourceId allowed lastId act = none ↔ pickCandidates allowed act = [] := by
  unfold pickRelevantSourceId
  by_cases h : (pickCandidates allowed act).isEmpty
  · rw [if_pos h]
    simp only [true_iff]
    exact List.isEmpty_iff.mp h
  · rw [if_neg h]
    have hne : pickCandidates allowed act ≠ [] := fun hc => h (by simp [hc])
    constructor
    · intro hres
      by_cases hst : (jsTruthy lastId && (pickCandidates allowed act).contains (lastId.getD 0)) = true
      · rw [if_pos hst] at hres
        rw [Bool.and_eq_true] at hst
        obtain ⟨ht, -⟩ := hst
        cases lastId with
        | none => simp [jsTruthy] at ht
        | some n => cases hres
      · rw [if_neg hst] at hres
        rw [List.getLast?_eq_getLast_of_ne_nil hne] at hres
        cases hres
    · intro hc; exact absurd hc hne

theorem pick_mem {allowed : List Int} {lastId : Option Int} {act : List Int} {c : Int}
    (h : pickRelevantSourceId allowed lastId act = some c) :
    c ∈ pickCandidates allowed act := by
  unfold pickRelevantSourceId at h
  by_cases hemp : (pickCandidates allowed act).isEmpty
  · rw [if_pos hemp] at h; cases h
  · rw [if_neg hemp] at h
    by_cases hst : (jsTruthy lastId && (pickCandidates allowed act).contains (lastId.getD 0)) = true
    · rw [if_pos hst] at h
      rw [Bool.and_eq_true] at hst
      obtain ⟨ht, hcont⟩ := hst
      cases lastId with
      | none => simp [jsTruthy] at ht
      | some n =>
        cases h
        simpa using hcont
    · rw [if_neg hst] at h
      rcases List.mem_getLast?_eq_getLast (Option.mem_def.mpr h) with ⟨hne, hceq⟩
      exact hceq ▸ List.getLast_mem hne

/-- Once a pick succeeded and was remembered, re-picking with the
remembered id over the same inputs returns the same id. -/
theorem pick_stable {allowed : List Int} {lastId : Option Int} {act : List Int} {c : Int}
    (h : pickRelevantSourceId allowed lastId act = some c) :
    pickRelevantSourceId allowed (some c) act = some c := by
  have hcmem : c ∈ pickCandidates allowed act := pick_mem h
  have hne : pickCandidates allowed act ≠ [] := List.ne_nil_of_mem hcmem
  have hemp : ¬ (pickCandidates allowed act).isEmpty := fun hc => hne (List.isEmpty_iff.mp hc)
  unfold pickRelevantSourceId at h ⊢
  rw [if_neg hemp] at h ⊢
  by_cases hzero : c = 0
  · subst hzero
    rw [if_neg (show ¬ ((jsTruthy (some (0 : Int)) &&
        (pickCandidates allowed act).contains ((some (0 : Int)).getD 0)) = true) by
      simp [jsTruthy])]
    by_cases hst0 : (jsTruthy lastId && (pickCandidates allowed act).contains (lastId.getD 0)) = true
    · rw [if_pos hst0] at h
      rw [Bool.and_eq_true] at hst0
      obtain ⟨ht, -⟩ := hst0
      cases lastId with
      | none => simp [jsTruthy] at ht
      | some n =>
        cases h
        simp [jsTruthy] at ht
    · rw [if_neg hst0] at h
      exact h
  · have hst : (jsTruthy (some c) && (pickCandidates allowed act).contains ((some c).getD 0)) = true := by
      simp only [jsTruthy, Option.getD_some, Bool.and_eq_true]
      exact ⟨by simpa using hzero, by simpa using hcmem⟩
    rw [if_pos hst]

theorem resetOutput2_cmds (ok : Bool) (s : MacroState) :
    (resetOutput2 ok s).2 = [] ∨ (resetOutput2 ok s).2 = [Command.reset OUTPUT2_ID] := by
  unfold resetOutput2
  split
  · exact Or.inl rfl
  · split
    · exact Or.inr rfl
    · exact Or.inr rfl

theorem resetOutput2_proj (ok : Bool) (s : MacroState) :
    (resetOutput2 ok s).1.googleCallActive = s.googleCallActive ∧
    (resetOutput2 ok s).1.allowedSourceIds = s.allowedSourceIds ∧
    (resetOutput2 ok s).1.reevaluating = s.reevaluating := by
  unfold resetOutput2
  split
  · exact ⟨rfl, rfl, rfl⟩
  · split
    · exact ⟨rfl, rfl, rfl⟩
    · exact ⟨rfl, rfl, rfl⟩

theorem resetOutput2_true_not_engaged (s : MacroState) :
    (resetOutput2 true s).1.matrixEngaged = false := by
  unfold resetOutput2
  split
  · next h => simpa using h
  · split
    · rfl
    · simp at *

theorem resetOutput2_of_not_engaged (ok : Bool) (s : MacroState)
    (h : s.matrixEngaged = false) : resetOutput2 ok s = (s, []) := by
  unfold resetOutput2
  rw [if_pos (by simp [h])]

theorem assignToOutput2_proj (ok : Bool) (v : Int) (s : MacroState) :
    (assignToOutput2 ok v s).1.googleCallActive = s.googleCallActive ∧
    (assignToOutput2 ok v s).1.allowedSourceIds = s.allowedSourceIds ∧
    (assignToOutput2 ok v s).1.reevaluating = s.reevaluating := by
  unfold assignToOutput2
  split
  · exact ⟨rfl, rfl, rfl⟩
  · exact ⟨rfl, rfl, rfl⟩

theorem refreshAllowed_proj (q : Option (List Connector)) (s : MacroState) :
    (refreshAllowedSourcesFromConnectors q s).googleCallActive = s.googleCallActive ∧
    (refreshAllowedSourcesFromConnectors q s).matrixEngaged = s.matrixEngaged ∧
    (refreshAllowedSourcesFromConnectors q s).lastMatrixSourceId = s.lastMatrixSourceId ∧
    (refreshAllowedSourcesFromConnectors q s).reevaluating = s.reevaluating := by
  unfold refreshAllowedSourcesFromConnectors
  cases q with
  | none =>
    dsimp only
    split
    · exact ⟨rfl, rfl, rfl, rfl⟩
    · exact ⟨rfl, rfl, rfl, rfl⟩
  | some conns =>
    dsimp only
    split
    · exact ⟨rfl, rfl, rfl, rfl⟩
    · exact ⟨rfl, rfl, rfl, rfl⟩

theorem refreshAllowed_ne_nil (q : Option (List Connector)) (s : MacroState) :
    (refreshAllowedSourcesFromConnectors q s).allowedSourceIds ≠ [] := by
  unfold refreshAllowedSourcesFromConnectors
  cases q with
  | none =>
    dsimp only
    split
    · simp
    · next h => exact fun hc => h (by simp [hc])
  | some conns =>
    dsimp only
    split
    · simp
    · next h => simpa using fun hc => h (by simp [hc])

theorem sigUpdate_proj (env : Env) (s : MacroState) :
    (sigUpdate env s).googleCallActive = s.googleCallActive ∧
    (sigUpdate env s).matrixEngaged = s.matrixEngaged ∧
    (sigUpdate env s).lastMatrixSourceId = s.lastMatrixSourceId ∧
    (sigUpdate env s).allowedSourceIds = s.allowedSourceIds ∧
    (sigUpdate env s).reevaluating = s.reevaluating := by
  unfold sigUpdate
  dsimp only
  split
  · exact ⟨rfl, rfl, rfl, rfl, rfl⟩
  · exact ⟨rfl, rfl, rfl, rfl, rfl⟩

theorem ensureAllowed_proj (env : Env) (s : MacroState) :
    (ensureAllowed env s).googleCallActive = s.googleCallActive ∧
    (ensureAllowed env s).matrixEngaged = s.matrixEngaged ∧
    (ensureAllowed env s).lastMatrixSourceId = s.lastMatrixSourceId ∧
    (ensureAllowed env s).reevaluating = s.reevaluating := by
  unfold ensureAllowed
  split
  · exact ⟨(refreshAllowed_proj _ _).1, (refreshAllowed_proj _ _).2.1,
      (refreshAllowed_proj _ _).2.2.1, (refreshAllowed_proj _ _).2.2.2⟩
  · exact ⟨rfl, rfl, rfl, rfl⟩

theorem ensureAllowed_ne_nil (env : Env) (s : MacroState) :
    (ensureAllowed env s).allowedSourceIds ≠ [] := by
  unfold ensureAllowed
  split
  · exact refreshAllowed_ne_nil _ _
  · next h => exact fun hc => h (by simp [hc])

/-- A run over a disengaged state whose meeting/remote condition is false
issues no command. -/
theorem reevaluate_release_noop (env : Env) (t : MacroState)
    (hfl : t.reevaluating = false)
    (hcond : (t.googleCallActive && isSharingToRemote env.presentation) = false)
    (heng : t.matrixEngaged = false) :
    (reevaluate env t).2 = [] := by
  unfold reevaluate
  rw [if_neg (by simp [hfl])]
  dsimp only
  rw [if_neg (show ¬ (((sigUpdate env t).googleCallActive &&
      isSharingToRemote env.presentation) = true) by
    rw [(sigUpdate_proj env t).1, hcond]; simp)]
  rw [resetOutput2_of_not_engaged _ _ (by rw [(sigUpdate_proj env t).2.1]; exact heng)]

/-- A run in the in-meeting branch over a state already consistent with
its own pick issues no command. -/
theorem reevaluate_inmeeting_noop (env : Env) (t : MacroState)
    (hfl : t.reevaluating = false)
    (hg : t.googleCallActive = true) (hrem : isSharingToRemote env.presentation = true)
    (hall : t.allowedSourceIds ≠ [])
    (hpick :
      (pickRelevantSourceId t.allowedSourceIds t.lastMatrixSourceId
          (getLocalPresentationSourceIds env.presentation) = none ∧ t.matrixEngaged = false) ∨
      (∃ c : Int, pickRelevantSourceId t.allowedSourceIds t.lastMatrixSourceId
          (getLocalPresentationSourceIds env.presentation) = some c ∧
        t.matrixEngaged = true ∧ t.lastMatrixSourceId = some c)) :
    (reevaluate env t).2 = [] := by
  unfold reevaluate
  rw [if_neg (by simp [hfl])]
  dsimp only
  rw [if_pos (show (((sigUpdate env t).googleCallActive &&
      isSharingToRemote env.presentation) = true) by
    rw [(sigUpdate_proj env t).1, hg, hrem]; rfl)]
  have hsu := sigUpdate_proj env t
  have hea := ensureAllowed_proj env (sigUpdate env t)
  have heaeq : (ensureAllowed env (sigUpdate env t)).allowedSourceIds = t.allowedSourceIds := by
    unfold ensureAllowed
    rw [if_neg (show ¬ ((sigUpdate env t).allowedSourceIds.isEmpty = true) by
      rw [hsu.2.2.2.1]; simpa using hall)]
    exact hsu.2.2.2.1
  have hul : (ensureAllowed env (sigUpdate env t)).lastMatrixSourceId = t.lastMatrixSourceId := by
    rw [hea.2.2.1, hsu.2.2.1]
  have hue : (ensureAllowed env (sigUpdate env t)).matrixEngaged = t.matrixEngaged := by
    rw [hea.2.1, hsu.2.1]
  unfold routeStep
  rcases hpick with ⟨hnone, heng⟩ | ⟨c, hsome, heng, hlast⟩
  · rw [heaeq, hul, hnone]
    rw [resetOutput2_of_not_engaged _ _ (by rw [hue]; exact heng)]
  · rw [heaeq, hul, hsome]
    dsimp only
    rw [if_neg (show ¬ ((!(ensureAllowed env (sigUpdate env t)).matrixEngaged ||
        decide (t.lastMatrixSourceId ≠ some c)) = true) by
      simp [hue, heng, hlast])]

/-- With both actuator commands accepted, a second run over the state a
first run produced issues no command. -/
theorem reevaluate_second_run_noop (env : Env) (s : MacroState)
    (ha : env.assignOk = true) (hres : env.resetOk = true) :
    (reevaluate env (reevaluate env s).1).2 = [] := by
  by_cases hfl : s.reevaluating = true
  · have h1 : reevaluate env s = (s, []) := by unfold reevaluate; rw [if_pos hfl]
    simp [h1]
  · have hfl' : s.reevaluating = false := by simpa using hfl
    by_cases hcond : (((sigUpdate env s).googleCallActive &&
        isSharingToRemote env.presentation) = true)
    · -- in-meeting branch
      have hca := hcond
      rw [Bool.and_eq_true] at hca
      obtain ⟨hg1, hrem⟩ := hca
      have h1 : reevaluate env s = routeStep env (ensureAllowed env (sigUpdate env s)) := by
        unfold reevaluate
        rw [if_neg (by simp [hfl'])]
        dsimp only
        rw [if_pos hcond]
      have hea := ensureAllowed_proj env (sigUpdate env s)
      have hsu := sigUpdate_proj env s
      have hufl : (ensureAllowed env (sigUpdate env s)).reevaluating = false := by
        rw [hea.2.2.2, hsu.2.2.2.2]; exact hfl'
      have hug : (ensureAllowed env (sigUpdate env s)).googleCallActive = true := by
        rw [hea.1]; exact hg1
      have huall : (ensureAllowed env (sigUpdate env s)).allowedSourceIds ≠ [] :=
        ensureAllowed_ne_nil env (sigUpdate env s)
      cases hp : pickRelevantSourceId (ensureAllowed env (sigUpdate env s)).allowedSourceIds
          (ensureAllowed env (sigUpdate env s)).lastMatrixSourceId
          (getLocalPresentationSourceIds env.presentation) with
      | none =>
        have h2 : routeStep env (ensureAllowed env (sigUpdate env s)) =
            resetOutput2 env.resetOk (ensureAllowed env (sigUpdate env s)) := by
          unfold routeStep; rw [hp]
        rw [h1, h2, hres]
        have hrp := resetOutput2_proj true (ensureAllowed env (sigUpdate env s))
        apply reevaluate_inmeeting_noop
        · rw [hrp.2.2]; exact hufl
        · rw [hrp.1]; exact hug
        · exact hrem
        · rw [hrp.2.1]; exact huall
        · left
          constructor
          · rw [pick_eq_none_iff] at hp ⊢
            rw [hrp.2.1]; exact hp
          · exact resetOutput2_true_not_engaged _
      | some c =>
        by_cases hdiff : ((!(ensureAllowed env (sigUpdate env s)).matrixEngaged ||
            decide ((ensureAllowed env (sigUpdate env s)).lastMatrixSourceId ≠ some c)) = true)
        · have h2 : routeStep env (ensureAllowed env (sigUpdate env s)) =
              assignToOutput2 env.assignOk c (ensureAllowed env (sigUpdate env s)) := by
            unfold routeStep; rw [hp]; dsimp only; rw [if_pos hdiff]
          rw [h1, h2, ha]
          have hteq : (assignToOutput2 true c (ensureAllowed env (sigUpdate env s))).1 =
              { ensureAllowed env (sigUpdate env s) with
                matrixEngaged := true, lastMatrixSourceId := some c } := rfl
          apply reevaluate_inmeeting_noop
          · rw [hteq]; exact hufl
          · rw [hteq]; exact hug
          · exact hrem
          · rw [hteq]; exact huall
          · right
            exact ⟨c, by rw [hteq]; exact pick_stable hp, by rw [hteq], by rw [hteq]⟩
        · have h2 : routeStep env (ensureAllowed env (sigUpdate env s)) =
              (ensureAllowed env (sigUpdate env s), []) := by
            unfold routeStep; rw [hp]; dsimp only; rw [if_neg hdiff]
          rw [h1, h2]
          have hdc : (ensureAllowed env (sigUpdate env s)).matrixEngaged = true ∧
              (ensureAllowed env (sigUpdate env s)).lastMatrixSourceId = some c := by
            simpa using hdiff
          apply reevaluate_inmeeting_noop
          · exact hufl
          · exact hug
          · exact hrem
          · exact huall
          · right
            exact ⟨c, hp, hdc.1, hdc.2⟩
    · -- release branch
      have h1 : reevaluate env s = resetOutput2 env.resetOk (sigUpdate env s) := by
        unfold reevaluate
        rw [if_neg (by simp [hfl'])]
        dsimp only
        rw [if_neg hcond]
      rw [h1, hres]
      have hrp := resetOutput2_proj true (sigUpdate env s)
      have hsu := sigUpdate_proj env s
      apply reevaluate_release_noop
      · rw [hrp.2.2, hsu.2.2.2.2]; exact hfl'
      · rw [hrp.1]
        simpa using hcond
      · exact resetOutput2_true_not_engaged _

theorem resetOutput2_cmds_len (ok : Bool) (s : MacroState) :
    (resetOutput2 ok s).2.length ≤ 1 := by
  rcases resetOutput2_cmds ok s with h | h <;> simp [h]

theorem refreshGoogleState_proj (q : Option (List CallRecord)) (s : MacroState) :
    (refreshGoogleState q s).matrixEngaged = s.matrixEngaged ∧
    (refreshGoogleState q s).lastMatrixSourceId = s.lastMatrixSourceId ∧
    (refreshGoogleState q s).allowedSourceIds = s.allowedSourceIds := by
  cases q <;> exact ⟨rfl, rfl, rfl⟩

/-- Any single run issues at most one command. -/
theorem reevaluate_cmds_len (env : Env) (s : MacroState) :
    (reevaluate env s).2.length ≤ 1 := by
  unfold reevaluate
  split
  · simp
  · dsimp only
    split
    · unfold routeStep
      split
      · exact resetOutput2_cmds_len _ _
      · split
        · unfold assignToOutput2
          split
          · simp
          · simp
        · simp
    · exact resetOutput2_cmds_len _ _

/-! ## Claims -/

/-- C1 (counterexample): as universally stated the Selection Policy claim
fails on the code. First conjunct: with an unsorted input list, the code
returns the last candidate `2`, not the numerically largest element `3`
of the intersection. Second conjunct: with `lastChosen = 0` present in
the intersection, the JS truthiness guard skips stickiness and the code
returns `5`, not `0`. -/
theorem pickRelevantSourceId_claim_counterexample :
    pickRelevantSourceId [2, 3] none [3, 2] = some 2 ∧
    pickRelevantSourceId [0, 5] (some 0) [0, 5] = some 5 := by
  constructor <;> rfl

/-- C1 (amended): for a sorted-ascending list of active ids (which is how
the reconciliation always calls it), `pickRelevantSourceId` returns none
when the intersection with the allowed set is empty, returns a *nonzero*
remembered `lastChosen` present in the intersection unchanged, and
otherwise returns the numerically largest identifier of the
intersection. -/
theorem pickRelevantSourceId_spec (allowed : List Int) (lastId : Option Int)
    (activeIds : List Int) (hsort : activeIds.Sorted (· ≤ ·)) :
    (pickCandidates allowed activeIds = [] →
      pickRelevantSourceId allowed lastId activeIds = none) ∧
    (∀ n : Int, lastId = some n → n ≠ 0 → n ∈ pickCandidates allowed activeIds →
      pickRelevantSourceId allowed lastId activeIds = some n) ∧
    (pickCandidates allowed activeIds ≠ [] →
      (∀ n : Int, lastId = some n → n ≠ 0 → n ∉ pickCandidates allowed activeIds) →
      ∃ m : Int, pickRelevantSourceId allowed lastId activeIds = some m ∧
        m ∈ pickCandidates allowed activeIds ∧
        ∀ x ∈ pickCandidates allowed activeIds, x ≤ m) := by
  refine ⟨fun h => (pick_eq_none_iff _ _ _).mpr h, ?_, ?_⟩
  · rintro n rfl hn0 hmem
    unfold pickRelevantSourceId
    rw [if_neg (show ¬ ((pickCandidates allowed activeIds).isEmpty = true) by
      simpa using List.ne_nil_of_mem hmem)]
    rw [if_pos (show (jsTruthy (some n) &&
        (pickCandidates allowed activeIds).contains ((some n).getD 0)) = true by
      simp only [jsTruthy, Option.getD_some, Bool.and_eq_true]
      exact ⟨by simpa using hn0, by simpa using hmem⟩)]
  · intro hne hnost
    have hemp : ¬ ((pickCandidates allowed activeIds).isEmpty = true) := by simpa using hne
    have hsorted : (pickCandidates allowed activeIds).Sorted (· ≤ ·) := hsort.filter _
    have hget := List.getLast?_eq_getLast_of_ne_nil hne
    have hst : ¬ ((jsTruthy lastId &&
        (pickCandidates allowed activeIds).contains (lastId.getD 0)) = true) := by
      rw [Bool.and_eq_true]
      rintro ⟨ht, hcont⟩
      cases lastId with
      | none => simp [jsTruthy] at ht
      | some n =>
        have hn0 : n ≠ 0 := by simpa [jsTruthy] using ht
        exact hnost n rfl hn0 (by simpa using hcont)
    refine ⟨(pickCandidates allowed activeIds).getLast hne, ?_,
      List.getLast_mem hne, ?_⟩
    · unfold pickRelevantSourceId
      rw [if_neg hemp, if_neg hst]
      exact hget
    · intro x hx
      exact le_getLast_of_sorted hsorted hget hx

/-- C1 (witness): the amended claim applied to the sorted input `[3, 5]`
with allowed `[2, 3]` and no remembered id. -/
theorem pickRelevantSourceId_spec_witness :
    (pickCandidates [2, 3] [3, 5] = [] → pickRelevantSourceId [2, 3] none [3, 5] = none) ∧
    (∀ n : Int, (none : Option Int) = some n → n ≠ 0 → n ∈ pickCandidates [2, 3] [3, 5] →
      pickRelevantSourceId [2, 3] none [3, 5] = some n) ∧
    (pickCandidates [2, 3] [3, 5] ≠ [] →
      (∀ n : Int, (none : Option Int) = some n → n ≠ 0 → n ∉ pickCandidates [2, 3] [3, 5]) →
      ∃ m : Int, pickRelevantSourceId [2, 3] none [3, 5] = some m ∧
        m ∈ pickCandidates [2, 3] [3, 5] ∧ ∀ x ∈ pickCandidates [2, 3] [3, 5], x ≤ m) :=
  pickRelevantSourceId_spec [2, 3] none [3, 5] (by decide)

/-- C2: reconciliation is idempotent when the platform accepts the
actuator commands: over unchanged ambient inputs the second run issues no
command, so the two runs together issue at most one assign/reset. -/
theorem reevaluate_idempotent (env : Env) (s : MacroState)
    (ha : env.assignOk = true) (hres : env.resetOk = true) :
    (reevaluate env (reevaluate env s).1).2 = [] ∧
    ((reevaluate env s).2 ++ (reevaluate env (reevaluate env s).1).2).length ≤ 1 := by
  have h2 := reevaluate_second_run_noop env s ha hres
  refine ⟨h2, ?_⟩
  rw [h2, List.append_nil]
  exact reevaluate_cmds_len env s

/-- C2 (witness): the end-to-end scenario — in a Google call, remote
sharing from sources `{2, 7}` with allowed `{2, 3}` — run twice. -/
theorem reevaluate_idempotent_witness :
    (reevaluate ⟨some [⟨some "LocalRemote", some [some 2, some 7], none⟩], none, true, true⟩
        (reevaluate
          ⟨some [⟨some "LocalRemote", some [some 2, some 7], none⟩], none, true, true⟩
          { initialState with googleCallActive := true, allowedSourceIds := [2, 3] }).1).2 = [] ∧
    ((reevaluate ⟨some [⟨some "LocalRemote", some [some 2, some 7], none⟩], none, true, true⟩
        { initialState with googleCallActive := true, allowedSourceIds := [2, 3] }).2 ++
      (reevaluate ⟨some [⟨some "LocalRemote", some [some 2, some 7], none⟩], none, true, true⟩
        (reevaluate
          ⟨some [⟨some "LocalRemote", some [some 2, some 7], none⟩], none, true, true⟩
          { initialState with googleCallActive := true, allowedSourceIds := [2, 3] }).1).2).length ≤ 1 :=
  reevaluate_idempotent
    ⟨some [⟨some "LocalRemote", some [some 2, some 7], none⟩], none, true, true⟩
    { initialState with googleCallActive := true, allowedSourceIds := [2, 3] } rfl rfl

/-- C3: `isSharingToRemote` is true iff some local presentation instance
reports sending mode `LocalRemote`; all-`LocalOnly` yields false; a
failed query yields false instead of propagating. -/
theorem isSharingToRemote_spec (l : List PresnInstance) :
    (isSharingToRemote (some l) = true ↔
      ∃ i ∈ l, i.sendingMode.getD "" = "LocalRemote") ∧
    ((∀ i ∈ l, i.sendingMode.getD "" = "LocalOnly") →
      isSharingToRemote (some l) = false) ∧
    isSharingToRemote none = false := by
  have hiff : isSharingToRemote (some l) = true ↔
      ∃ i ∈ l, i.sendingMode.getD "" = "LocalRemote" := by
    simp [isSharingToRemote, List.any_eq_true]
  refine ⟨hiff, ?_, rfl⟩
  intro hall
  cases hbool : isSharingToRemote (some l) with
  | false => rfl
  | true =>
    obtain ⟨i, hi, hmode⟩ := hiff.mp hbool
    rw [hall i hi] at hmode
    exact absurd hmode (by decide)

/-- C4: one-time initialization discovers allowed sources (never leaving
them empty), classifies the current meeting from the call snapshot, and
ends with RoutingState reset to `{engaged = false, currentSourceId = null}`. -/
theorem init_clean_start (env : Env) (calls : Option (List CallRecord)) :
    (init env calls).1.matrixEngaged = false ∧
    (init env calls).1.lastMatrixSourceId = none ∧
    (init env calls).1.allowedSourceIds ≠ [] ∧
    (init env calls).1.googleCallActive =
      (calls.getD []).any (fun c => looksLikeGoogle (callCandidate c)) := by
  unfold init
  dsimp only
  have hra := refreshAllowed_proj env.connectors initialState
  have hrg := refreshGoogleState_proj calls
    (refreshAllowedSourcesFromConnectors env.connectors initialState)
  have heng : (refreshGoogleState calls
      (refreshAllowedSourcesFromConnectors env.connectors initialState)).matrixEngaged
      = false := by
    rw [hrg.1, hra.2.1]; rfl
  rw [resetOutput2_of_not_engaged _ _ heng]
  refine ⟨heng, ?_, ?_, ?_⟩
  · rw [hrg.2.1, hra.2.2.1]; rfl
  · rw [hrg.2.2]
    exact refreshAllowed_ne_nil _ _
  · cases calls <;> rfl

/-- C5: the invariant `engaged == false ⇒ currentSourceId == null` holds
initially and is preserved by both actuator operations, on success and
failure paths alike. -/
theorem routingInv_preserved (s : MacroState) (v : Int) (ok : Bool)
    (hinv : RoutingInv s) :
    RoutingInv initialState ∧
    RoutingInv (assignToOutput2 ok v s).1 ∧
    RoutingInv (resetOutput2 ok s).1 := by
  refine ⟨fun _ => rfl, ?_, ?_⟩
  · unfold assignToOutput2
    split
    · exact fun h => Bool.noConfusion h
    · exact hinv
  · unfold resetOutput2
    split
    · exact hinv
    · split
      · exact fun _ => rfl
      · exact hinv

/-- C5 (witness): the preservation theorem applied at the initial state. -/
theorem routingInv_preserved_witness :
    RoutingInv initialState ∧
    RoutingInv (assignToOutput2 true 3 initialState).1 ∧
    RoutingInv (resetOutput2 true initialState).1 :=
  routingInv_preserved initialState 3 true (fun _ => rfl)

/-- C6: actuator commands are atomic for RoutingState — a failing assign
or reset leaves the whole state unchanged; a successful assign sets
`{true, sourceId}` and a successful release leaves `{false, null}`. -/
theorem actuator_atomic (s : MacroState) (v : Int) (hinv : RoutingInv s) :
    (assignToOutput2 false v s).1 = s ∧
    (resetOutput2 false s).1 = s ∧
    ((assignToOutput2 true v s).1.matrixEngaged = true ∧
      (assignToOutput2 true v s).1.lastMatrixSourceId = some v) ∧
    ((resetOutput2 true s).1.matrixEngaged = false ∧
      (resetOutput2 true s).1.lastMatrixSourceId = none) := by
  refine ⟨rfl, ?_, ⟨rfl, rfl⟩, resetOutput2_true_not_engaged s, ?_⟩
  · unfold resetOutput2
    split
    · rfl
    · rw [if_neg (by simp)]
  · unfold resetOutput2
    split
    · next h => exact hinv (by simpa using h)
    · rw [if_pos rfl]

/-- C6 (witness): the atomicity theorem applied at the initial state. -/
theorem actuator_atomic_witness :
    (assignToOutput2 false 3 initialState).1 = initialState ∧
    (resetOutput2 false initialState).1 = initialState ∧
    ((assignToOutput2 true 3 initialState).1.matrixEngaged = true ∧
      (assignToOutput2 true 3 initialState).1.lastMatrixSourceId = some 3) ∧
    ((resetOutput2 true initialState).1.matrixEngaged = false ∧
      (resetOutput2 true initialState).1.lastMatrixSourceId = none) :=
  actuator_atomic initialState 3 (fun _ => rfl)

/-- C7 (counterexample): on a connector query failure with a previously
non-empty allowed set, the code keeps the previous set instead of falling
back to the hardcoded default `[2, 3]`. -/
theorem refreshAllowedSources_claim_counterexample :
    (refreshAllowedSourcesFromConnectors none
      { initialState with allowedSourceIds := [5] }).allowedSourceIds = [5] ∧
    ([5] : List Int) ≠ [2, 3] := by
  exact ⟨rfl, by decide⟩

/-- C7 (amended): an id is discovered iff some connector yields it and
its normalized type label matches a USB-C or HDMI pattern; the discovered
set is sorted ascending; an empty discovery result falls back to `[2, 3]`;
a query failure falls back to `[2, 3]` only when the current set is
empty, otherwise the previous set is kept. -/
theorem refreshAllowedSources_spec (conns : List Connector) (s t : MacroState) :
    (∀ i : Int, i ∈ discoveredIds conns ↔
      ∃ c ∈ conns, parseConnectorId c = some i ∧ connectorTypeEligible c = true) ∧
    (discoveredIds conns).Sorted (· ≤ ·) ∧
    (refreshAllowedSourcesFromConnectors (some conns) s).allowedSourceIds =
      (if discoveredIds conns = [] then [2, 3] else discoveredIds conns) ∧
    (refreshAllowedSourcesFromConnectors none t).allowedSourceIds =
      (if t.allowedSourceIds = [] then [2, 3] else t.allowedSourceIds) := by
  refine ⟨?_, ?_, ?_, ?_⟩
  · intro i
    unfold discoveredIds
    rw [List.mem_insertionSort, mem_dedupFirst, List.mem_filterMap]
    constructor
    · rintro ⟨c, hc, hf⟩
      refine ⟨c, hc, ?_⟩
      cases hpc : parseConnectorId c with
      | none => rw [hpc] at hf; cases hf
      | some cid =>
        rw [hpc] at hf
        dsimp only at hf
        by_cases hel : connectorTypeEligible c = true
        · rw [if_pos hel] at hf
          cases hf
          exact ⟨rfl, hel⟩
        · rw [if_neg hel] at hf; cases hf
    · rintro ⟨c, hc, hpc, hel⟩
      refine ⟨c, hc, ?_⟩
      rw [hpc]
      dsimp only
      rw [if_pos hel]
  · exact List.sorted_insertionSort _ _
  · unfold refreshAllowedSourcesFromConnectors
    dsimp only
    by_cases h : discoveredIds conns = []
    · rw [if_pos (by simp [h]), if_pos h]
    · rw [if_neg (by simpa using h), if_neg h]
  · unfold refreshAllowedSourcesFromConnectors
    dsimp only
    by_cases h : t.allowedSourceIds = []
    · rw [if_pos (by simp [h]), if_pos h]
    · rw [if_neg (by simpa using h), if_neg h]

/-- C8: a failed call-list query forces the classification to false, and
a run over a state with classification false never assigns — it takes the
release path (no command, or a single Reset). -/
theorem refreshGoogleState_fail_closed (s t : MacroState) (env : Env)
    (hg : t.googleCallActive = false) :
    (refreshGoogleState none s).googleCallActive = false ∧
    ((reevaluate env t).2 = [] ∨ (reevaluate env t).2 = [Command.reset OUTPUT2_ID]) := by
  refine ⟨rfl, ?_⟩
  unfold reevaluate
  split
  · exact Or.inl rfl
  · dsimp only
    rw [if_neg (show ¬ (((sigUpdate env t).googleCallActive &&
        isSharingToRemote env.presentation) = true) by
      rw [(sigUpdate_proj env t).1, hg]; simp)]
    exact resetOutput2_cmds _ _

/-- C8 (witness): the fail-closed theorem applied at the initial state
with a failing environment. -/
theorem refreshGoogleState_fail_closed_witness :
    (refreshGoogleState none initialState).googleCallActive = false ∧
    ((reevaluate ⟨none, none, true, true⟩ initialState).2 = [] ∨
      (reevaluate ⟨none, none, true, true⟩ initialState).2 = [Command.reset OUTPUT2_ID]) :=
  refreshGoogleState_fail_closed initialState initialState ⟨none, none, true, true⟩ rfl

/-- C9: a successful release leaves RoutingState `{false, null}`; release
from a disengaged state is a no-op issuing no command; and from a
released state, a successful assign followed by a successful release
restores exactly `{false, null}`. -/
theorem release_invariant (s t : MacroState) (v : Int) (ok : Bool)
    (hinv : RoutingInv s) (hte : t.matrixEngaged = false)
    (htl : t.lastMatrixSourceId = none) :
    ((resetOutput2 true s).1.matrixEngaged = false ∧
      (resetOutput2 true s).1.lastMatrixSourceId = none) ∧
    resetOutput2 ok t = (t, []) ∧
    ((resetOutput2 true (assignToOutput2 true v t).1).1.matrixEngaged = false ∧
      (resetOutput2 true (assignToOutput2 true v t).1).1.lastMatrixSourceId = none) := by
  refine ⟨⟨resetOutput2_true_not_engaged s, ?_⟩,
    resetOutput2_of_not_engaged ok t hte, rfl, rfl⟩
  unfold resetOutput2
  split
  · next h => exact hinv (by simpa using h)
  · rw [if_pos rfl]

/-- C9 (witness): the release theorem applied at the initial (released)
state with source id 2. -/
theorem release_invariant_witness :
    ((resetOutput2 true initialState).1.matrixEngaged = false ∧
      (resetOutput2 true initialState).1.lastMatrixSourceId = none) ∧
    resetOutput2 true initialState = (initialState, []) ∧
    ((resetOutput2 true (assignToOutput2 true 2 initialState).1).1.matrixEngaged = false ∧
      (resetOutput2 true (assignToOutput2 true 2 initialState).1).1.lastMatrixSourceId = none) :=
  release_invariant initialState initialState 2 true (fun _ => rfl) rfl rfl

/-- C10: a single run of `reevaluate` issues at most one platform
command — no commands, exactly one Assign, or exactly one Reset; never
both. -/
theorem reevaluate_single_command (env : Env) (s : MacroState) :
    (reevaluate env s).2 = [] ∨
    (∃ c : Int, (reevaluate env s).2 = [Command.assign OUTPUT2_ID c]) ∨
    (reevaluate env s).2 = [Command.reset OUTPUT2_ID] := by
  unfold reevaluate
  split
  · exact Or.inl rfl
  · dsimp only
    split
    · unfold routeStep
      split
      · rcases resetOutput2_cmds env.resetOk
          (ensureAllowed env (sigUpdate env s)) with h | h
        · exact Or.inl h
        · exact Or.inr (Or.inr h)
      · split
        · unfold assignToOutput2
          split
          · exact Or.inr (Or.inl ⟨_, rfl⟩)
          · exact Or.inr (Or.inl ⟨_, rfl⟩)
        · exact Or.inl rfl
    · rcases resetOutput2_cmds env.resetOk (sigUpdate env s) with h | h
      · exact Or.inl h
      · exact Or.inr (Or.inr h)

end GShare
